import Mathlib

/-!
Verification of the manga_creator backend (FastAPI + SQLAlchemy) against its
natural-language specification.

The development shallowly embeds the code-generation, image-generation and
analytics logic of src/backend/character_routes.py and the declarative table
schema of src/backend/models.py.  Database tables are modelled as Lean lists
of rows, the external image service as an explicit upstream outcome value,
and the SQL queries of the source as the corresponding pure list operations:

  * SQL "LIKE 'pfx-%'"                 -> listStarts (pfx ++ "-")
  * "ORDER BY code DESC LIMIT 1"       -> lexMax (maximum in the String order,
                                          bytewise on ASCII, as in SQL's C collation)
  * Python "code.split('-')[-1]"       -> afterLastDash (the text after the last dash)
  * Python "int(s)" with ValueError    -> pyInt (decimal digit strings; the exotic
    falling back to 0                     forms int() also accepts, such as
                                          whitespace/sign/underscore, never arise here)
  * Python f-string "{n:04d}"          -> pad4 (decimal, left-padded with zeros to
                                          width 4; n is a natural number here because
                                          the parsed suffix is never negative)

`generate_code` reads the hard-coded attribute `model_class.char_code`;
which code attribute each SQLAlchemy model class actually declares is
modelled by `ModelClass`, and `generate_codeFull` dispatches on it (the
lookup raises `AttributeError` for every model class but `Character`).

Machine floats of the source (height_cm, average_age) are modelled as
rationals; they are only carried or averaged, never compared at float
precision by any claim under study.
-/

namespace Manga

/-! ## Decimal digits -/

/-- The ASCII digit character for a value below ten (values ten and above are
clamped, but are never produced by `natDigitsAux`). -/
def digitChar : Nat → Char
  | 0 => '0' | 1 => '1' | 2 => '2' | 3 => '3' | 4 => '4'
  | 5 => '5' | 6 => '6' | 7 => '7' | 8 => '8' | _ + 9 => '9'

/-- Fuel-indexed most-significant-first decimal digits of a natural number. -/
def natDigitsAux : Nat → Nat → List Char
  | 0, _ => []
  | fuel + 1, n =>
    if n < 10 then [digitChar n]
    else natDigitsAux fuel (n / 10) ++ [digitChar (n % 10)]

/-- Decimal digit string of a natural number, most significant digit first. -/
def natDigits (n : Nat) : List Char := natDigitsAux (n + 1) n

/-- Models Python's `f"{n:04d}"` for a natural number: decimal digits
left-padded with zeros to width 4. -/
def pad4 (n : Nat) : String :=
  ⟨List.replicate (4 - (natDigits n).length) '0' ++ natDigits n⟩

/-- Value of a decimal digit character ('0' -> 0, ..., '9' -> 9). -/
def digitVal (c : Char) : Nat := c.toNat - 48

/-- Left fold computing the value of a most-significant-first digit string,
as Python's `int` does. -/
def digitsVal (l : List Char) : Nat := l.foldl (fun a c => 10 * a + digitVal c) 0

/-- Is the character an ASCII decimal digit? -/
def isDigitChar (c : Char) : Bool := 48 ≤ c.toNat && c.toNat ≤ 57

/-- Models Python's `int(s)` on the strings arising here: a nonempty string of
ASCII decimal digits parses to its value, anything else raises `ValueError`
(modelled as `none`). -/
def pyInt (s : String) : Option Nat :=
  if s.data ≠ [] ∧ s.data.all isDigitChar then some (digitsVal s.data) else none

/-! ## Code strings -/

/-- Models Python's `s.split('-')[-1]`: the text after the last `'-'`, or the
whole string when no dash occurs. -/
def afterLastDash (s : String) : String :=
  ⟨(s.data.reverse.takeWhile (fun c => c ≠ '-')).reverse⟩

/-- Models `int(last_code.split('-')[-1])` with the source's
`except ValueError: last_number = 0` fallback (character_routes.py lines 38-41). -/
def parseSuffix (code : String) : Nat := (pyInt (afterLastDash code)).getD 0

/-- The code minted for a prefix and a suffix number:
`f"{prefix}-{new_number:04d}"` (character_routes.py line 46). -/
def mkCode (pfx : String) (n : Nat) : String := pfx ++ "-" ++ pad4 n

/-- Boolean list-prefix test (used to model SQL `LIKE 'pfx-%'`). -/
def listStarts : List Char → List Char → Bool
  | [], _ => true
  | _ :: _, [] => false
  | a :: as, b :: bs => a == b && listStarts as bs

/-- Models the SQL filter `char_code LIKE f"{prefix}-%"`
(character_routes.py lines 33-34). -/
def codeMatches (pfx code : String) : Bool := listStarts (pfx ++ "-").data code.data

/-- Strict lexicographic comparison of character lists by codepoint.  On the
ASCII code strings at hand this is exactly SQL's bytewise (C-collation)
ordering used by `ORDER BY char_code DESC` (UTF-8 byte order agrees with
codepoint order). -/
def lexLtChars : List Char → List Char → Bool
  | [], [] => false
  | [], _ :: _ => true
  | _ :: _, [] => false
  | a :: as, b :: bs =>
    if a.toNat < b.toNat then true
    else if b.toNat < a.toNat then false
    else lexLtChars as bs

/-- Strict lexicographic comparison of strings. -/
def lexLt (s t : String) : Bool := lexLtChars s.data t.data

/-- Maximum of a list of strings in lexicographic order; models
`ORDER BY char_code DESC ... first()` (character_routes.py line 35). -/
def lexMax : List String → Option String
  | [] => none
  | c :: cs =>
    some (match lexMax cs with
          | none => c
          | some m => if lexLt c m then m else c)

/-! ## The code generator (character_routes.py, `generate_code`, lines 24-59)

The source reads the *hard-coded attribute* `model_class.char_code` (lines
33-35 and 50).  Only `models.Character` declares that attribute; `Costume`,
`AgeState` and `CharacterChange` declare `costume_code` / `age_code` /
`change_code` instead, so for those model classes the attribute lookup
raises `AttributeError` inside the `try`, which lands in the `except`
handler (lines 55-57) on every attempt.  The definitions in this subsection
(`lastNumber`, `generate_code_attempt`, `generate_codeLoop`,
`generate_code`) model the calls where the attribute exists, i.e. the
`models.Character` table, as the list of its `char_code` column values; the
attribute-missing dispatch is modelled separately by `generate_codeFull`
below, which agrees with these definitions on `Character`
(`generate_codeFull_character`).

One loop iteration of the source is `generate_code_attempt`: read the
lexicographically greatest code for the prefix, parse its numeric suffix
(malformed suffixes fall back to 0), increment, zero-pad, and pre-check the
candidate against the whole table; a pre-check hit executes `continue`
(line 52), which reruns the identical computation on the unchanged table.
With the attribute present, the `except` branch fires only on
database/driver exceptions, which the pure model cannot produce; in
particular the `asyncio.sleep(0.1 * (attempt + 1))` on line 57 is *not* on
the pre-check `continue` path. -/

/-- `last_number` as computed on lines 33-43: the parsed suffix of the
lexicographically greatest code matching the prefix, or 0 when none exists. -/
def lastNumber (pfx : String) (table : List String) : Nat :=
  match lexMax (table.filter (fun c => codeMatches pfx c)) with
  | none => 0
  | some c => parseSuffix c

/-- One attempt of the `generate_code` retry loop: mint
`mkCode pfx (last_number + 1)` and pre-check it against the whole table
(line 50 filters on equality of the code column, so against every row). -/
def generate_code_attempt (pfx : String) (table : List String) : Option String :=
  let newCode := mkCode pfx (lastNumber pfx table + 1)
  if newCode ∈ table then none else some newCode

/-- The `for attempt in range(max_retries)` loop of `generate_code`; the second
component records the sleeps performed between attempts, in deciseconds
(the source sleeps `0.1 * (attempt + 1)` seconds, but only in its `except`
branch, never on the pre-check `continue` path). `none` models the final
`raise Exception(...)` on line 59. -/
def generate_codeLoop (pfx : String) (table : List String) : Nat → Option String × List Nat
  | 0 => (none, [])
  | fuel + 1 =>
    match generate_code_attempt pfx table with
    | some c => (some c, [])
    | none => generate_codeLoop pfx table fuel

/-- `generate_code` with its `max_retries = 5`. -/
def generate_code (pfx : String) (table : List String) : Option String :=
  (generate_codeLoop pfx table 5).1

/-- A single-threaded run of successive `generate_code` calls, inserting each
returned code into the table before the next call and stopping when a call
fails; returns the codes in the order they were returned. -/
def genRun (pfx : String) : List String → Nat → List String
  | _, 0 => []
  | table, n + 1 =>
    match generate_code pfx table with
    | none => []
    | some c => c :: genRun pfx (c :: table) n

/-- A table is 4-digit well-formed for a prefix when every code matching the
prefix carries a zero-padded 4-digit numeric suffix (value at most 9999). -/
def WellFormed4 (pfx : String) (table : List String) : Prop :=
  ∀ c ∈ table, codeMatches pfx c = true → ∃ s ≤ 9999, c = mkCode pfx s

/-! ## The generator with the model-class attribute dispatch

`generate_code(prefix, db, model_class)` reads `model_class.char_code`; the
name of the code attribute each model class actually declares (models.py) is
part of the state the function's behaviour depends on. -/

/-- A SQLAlchemy model class as seen by `generate_code`: the name of the
declared code attribute (`model_class.char_code` succeeds only when it is
literally `char_code`). -/
structure ModelClass where
  codeAttrName : String
deriving DecidableEq, Repr

/-- `models.Character` declares `char_code` (models.py line 12). -/
def Character_model : ModelClass := { codeAttrName := "char_code" }

/-- `models.Costume` declares `costume_code` (models.py line 33) and no
`char_code`. -/
def Costume_model : ModelClass := { codeAttrName := "costume_code" }

/-- `models.AgeState` declares `age_code` (models.py line 48) and no
`char_code`. -/
def AgeState_model : ModelClass := { codeAttrName := "age_code" }

/-- `models.CharacterChange` declares `change_code` (models.py line 62) and
no `char_code`. -/
def CharacterChange_model : ModelClass := { codeAttrName := "change_code" }

/-- Outcome of one `try` body of the `generate_code` loop, with the
attribute lookup made explicit. -/
inductive AttemptResult where
  | returned (code : String)
  | precheckHit
  | attrError
deriving DecidableEq, Repr

/-- One attempt of the `generate_code` loop including the
`model_class.char_code` lookups: when the model class does not declare
`char_code`, the query construction on line 33 raises `AttributeError`
(before anything else runs), landing in the `except` handler; otherwise the
attempt proceeds as in `generate_code_attempt`. -/
def generate_code_attemptFull (pfx : String) (m : ModelClass)
    (table : List String) : AttemptResult :=
  if m.codeAttrName ≠ "char_code" then .attrError
  else
    match generate_code_attempt pfx table with
    | some c => .returned c
    | none => .precheckHit

/-- The full `for attempt in range(max_retries)` loop: a pre-check hit
`continue`s with no sleep, while an exception (here, the `AttributeError` of
a model class without `char_code`) runs the handler's
`asyncio.sleep(0.1 * (attempt + 1))` — recorded in deciseconds — before the
next attempt; exhaustion models the `raise` on line 59. -/
def generate_codeFull (pfx : String) (m : ModelClass) (table : List String) :
    Nat → Nat → Option String × List Nat
  | _, 0 => (none, [])
  | attempt, fuel + 1 =>
    match generate_code_attemptFull pfx m table with
    | .returned c => (some c, [])
    | .precheckHit => generate_codeFull pfx m table (attempt + 1) fuel
    | .attrError =>
      let (r, sleeps) := generate_codeFull pfx m table (attempt + 1) fuel
      (r, (attempt + 1) :: sleeps)

/-- `generate_code(prefix, db, model_class)` with its `max_retries = 5`:
the returned code (`none` models the final `raise`) and the sleep trace. -/
def generate_code_model (pfx : String) (m : ModelClass)
    (table : List String) : Option String × List Nat :=
  generate_codeFull pfx m table 0 5

/-! ## Declarative schema (models.py)

Only the fields the claims are about: whether SQLAlchemy's `Column(...)`
declaration carries `unique=True` and `nullable=False`. -/

structure ColumnSpec where
  colName : String
  uniq : Bool
  nullable : Bool
deriving DecidableEq, Repr

/-- `Character.char_code = Column(Text, nullable=False)` (models.py line 12):
no `unique=True`. -/
def character_char_code : ColumnSpec :=
  { colName := "char_code", uniq := false, nullable := false }

/-- `Costume.costume_code = Column(String, unique=True, index=True, nullable=False)`
(models.py line 33). -/
def costume_costume_code : ColumnSpec :=
  { colName := "costume_code", uniq := true, nullable := false }

/-- `AgeState.age_code = Column(String, unique=True, index=True, nullable=False)`
(models.py line 48). -/
def age_state_age_code : ColumnSpec :=
  { colName := "age_code", uniq := true, nullable := false }

/-- `CharacterChange.change_code = Column(String, unique=True, index=True, nullable=False)`
(models.py line 62). -/
def character_change_change_code : ColumnSpec :=
  { colName := "change_code", uniq := true, nullable := false }

/-- A database insert of a code value into a table whose code column is
declared by `col`: the insert is rejected (uniqueness violation) exactly when
the column has a uniqueness constraint and the value is already present. -/
def insertCode (col : ColumnSpec) (codes : List String) (c : String) :
    Option (List String) :=
  if col.uniq && codes.contains c then none else some (codes ++ [c])

/-! ## Image generation client
(character_routes.py, `generate_image_with_pollinations`, lines 62-83) -/

/-- Outcome of the single upstream HTTP GET: either a response with a status
code and raw body bytes, or a transport-level failure (timeout, connection
error) carrying the exception text. -/
inductive UpstreamResult where
  | response (status : Nat) (content : List Nat)
  | transportError (msg : String)
deriving DecidableEq, Repr

/-- Standard base64 alphabet character (index below 64). -/
def base64Char (n : Nat) : Char :=
  "ABCDEFGHIJKLMNOPQRSTUVWXYZabcdefghijklmnopqrstuvwxyz0123456789+/".data.getD n '='

/-- RFC 4648 base64 of a byte list, as Python's `base64.b64encode` produces. -/
def base64Encode : List Nat → String
  | [] => ""
  | [a] => ⟨[base64Char (a / 4), base64Char (a % 4 * 16), '=', '=']⟩
  | [a, b] => ⟨[base64Char (a / 4), base64Char (a % 4 * 16 + b / 16),
               base64Char (b % 16 * 4), '=']⟩
  | a :: b :: c :: rest =>
    (⟨[base64Char (a / 4), base64Char (a % 4 * 16 + b / 16),
      base64Char (b % 16 * 4 + c / 64), base64Char (c % 64)]⟩ : String)
      ++ base64Encode rest

/-- The image client: on HTTP 200 the body bytes are base64-encoded into a
`data:image/png;base64,...` inline reference; a non-200 status raises
`Exception(f"API returned status {status}")` inside the `try`, and every
failure is re-raised as `Exception(f"Image generation failed: {e}")`
(lines 74-83). `Except.error` carries the message of that final exception. -/
def generate_image_with_pollinations (u : UpstreamResult) : Except String String :=
  match u with
  | .response status content =>
    if status = 200 then
      .ok ("data:image/png;base64," ++ base64Encode content)
    else
      .error ("Image generation failed: API returned status " ++ toString status)
  | .transportError msg => .error ("Image generation failed: " ++ msg)

/-- Does the upstream call succeed (HTTP 200)? -/
def upstreamOk : UpstreamResult → Bool
  | .response status _ => status == 200
  | .transportError _ => false

/-! ## Prompt building (Python truthiness) -/

/-- Python truthiness of an optional string (`None` and `""` are falsy). -/
def strTruthy : Option String → Bool
  | none => false
  | some s => s ≠ ""

/-- Python truthiness of an optional integer (`None` and `0` are falsy). -/
def intTruthy : Option Int → Bool
  | none => false
  | some n => n ≠ 0

/-- The base prompt of `generate_character_variants` (lines 141-145), also the
base of the avatar prompt (lines 205-209): name, then description if truthy,
then age if truthy. -/
def buildBasePrompt (name : String) (description : Option String)
    (age : Option Int) : String :=
  let p := "manga style character portrait, " ++ name
  let p := if strTruthy description then p ++ ", " ++ description.getD "" else p
  if intTruthy age then p ++ ", " ++ toString (age.getD 0) ++ " years old" else p

/-! ## Multi-variant fan-out
(character_routes.py, `generate_character_variants`, lines 134-190) -/

/-- The six predefined style templates (lines 148-155). -/
def styleVariations : List String :=
  ["anime style, clean cel shading, bright colors, detailed eyes",
   "manga style, black and white lineart, high contrast",
   "anime portrait, soft lighting, pastel colors, gentle expression",
   "manga character sheet, multiple angles, reference design",
   "anime art style, dynamic pose, vibrant background",
   "manga illustration, traditional style, detailed shading"]

structure CharacterVariant where
  variant_id : Nat
  image_url : String
  style : String
  prompt_used : String
deriving DecidableEq, Repr

structure CharacterGenerationResponse where
  character_name : String
  variants : List CharacterVariant
  total_generated : Nat
deriving DecidableEq, Repr

/-- The result-collection loop (lines 166-176): `i` is the running index of
`enumerate`, styles and per-call outcomes walk in lockstep; an exception
result is skipped, a success is appended as a variant record. -/
def collectVariants (basePrompt : String) :
    Nat → List String → List (Except String String) → List CharacterVariant
  | _, _, [] => []
  | _, [], _ :: _ => []
  | i, style :: styles, r :: rs =>
    match r with
    | .error _ => collectVariants basePrompt (i + 1) styles rs
    | .ok url =>
      { variant_id := i + 1, image_url := url, style := style,
        prompt_used := basePrompt ++ ", " ++ style } ::
        collectVariants basePrompt (i + 1) styles rs

/-- The number of successful outcomes among the gathered results. -/
def okCount (rs : List (Except String String)) : Nat :=
  (rs.filter (fun r => match r with | .ok _ => true | .error _ => false)).length

/-- The fan-out endpoint, parameterised by the outcome of each of the six
image calls (`asyncio.gather(..., return_exceptions=True)`).  An empty
variant list raises HTTP 500 "All image generation attempts failed"
(line 179), modelled as `Except.error`. -/
def generate_character_variants (name : String) (description : Option String)
    (age : Option Int) (outcomes : List (Except String String)) :
    Except String CharacterGenerationResponse :=
  let basePrompt := buildBasePrompt name description age
  let variants := collectVariants basePrompt 0 styleVariations outcomes
  if variants = [] then .error "All image generation attempts failed"
  else .ok { character_name := name, variants := variants,
             total_generated := variants.length }

/-! ## Bulk generation
(character_routes.py, `bulk_generate_characters`, lines 458-499) -/

structure BulkItem where
  name : String
  description : Option String
  age : Option Int
  height_cm : Option Rat
deriving DecidableEq, Repr

structure BulkResult where
  name : String
  description : Option String
  age : Option Int
  height_cm : Option Rat
  image_url : Option String
  generated : Bool
  error : Option String
deriving DecidableEq, Repr

/-- The prompt built for one bulk item (lines 466-471). -/
def buildBulkPrompt (item : BulkItem) : String :=
  buildBasePrompt item.name item.description item.age ++
    ", anime art style, character design, high quality"

/-- The bulk loop: one upstream outcome per input item, walked in lockstep; a
successful generation appends a `generated := true` record, a failure appends
a `generated := false` record carrying `str(e)`, and the loop continues
either way. -/
def bulk_generate_characters :
    List BulkItem → List UpstreamResult → List BulkResult
  | [], _ => []
  | _ :: _, [] => []
  | item :: items, u :: us =>
    (match generate_image_with_pollinations u with
     | .ok url =>
       { name := item.name, description := item.description, age := item.age,
         height_cm := item.height_cm, image_url := some url,
         generated := true, error := none }
     | .error e =>
       { name := item.name, description := item.description, age := item.age,
         height_cm := item.height_cm, image_url := none,
         generated := false, error := some e }) ::
      bulk_generate_characters items us

/-! ## Single-avatar generation
(character_routes.py, `generate_character_avatar`, lines 192-252) -/

structure CharacterRow where
  id : Nat
  char_code : String
  name : String
  description : Option String
  age : Option Int
  height_cm : Option Rat
  image_url : Option String
deriving DecidableEq, Repr

structure GenerationHistoryRow where
  entity_type : String
  entity_id : Nat
  prompt_used : String
  success : Bool
  error_message : Option String
deriving DecidableEq, Repr

/-- The persistent state the avatar endpoint touches: the characters table and
the generation-history table (`generation_time_seconds` and the timestamps,
being wall-clock values, are not modelled). -/
structure AvatarState where
  characters : List CharacterRow
  history : List GenerationHistoryRow
deriving DecidableEq, Repr

inductive AvatarResult where
  | ok (character_id : Nat) (image_url : String) (prompt_used : String)
  | notFound
  | serverError (detail : String)
deriving DecidableEq, Repr

/-- The avatar prompt (lines 205-211). -/
def buildAvatarPrompt (c : CharacterRow) (style_preference : String) : String :=
  buildBasePrompt c.name c.description c.age ++ ", " ++ style_preference ++
    ", high quality, character design"

/-- The single-avatar endpoint: look up the character (404 when absent), call
the client once; on success set the character's `image_url` and append a
success history row; on failure leave the characters table untouched, append
a failure history row carrying `str(e)`, and surface HTTP 500. -/
def generate_character_avatar (character_id : Nat) (style_preference : String)
    (u : UpstreamResult) (s : AvatarState) : AvatarState × AvatarResult :=
  match s.characters.find? (fun c => c.id == character_id) with
  | none => (s, .notFound)
  | some c =>
    let prompt := buildAvatarPrompt c style_preference
    match generate_image_with_pollinations u with
    | .ok url =>
      ({ characters :=
           s.characters.map
             (fun r => if r.id == character_id then { r with image_url := some url } else r),
         history := s.history ++
           [{ entity_type := "character", entity_id := character_id,
              prompt_used := prompt, success := true, error_message := none }] },
       .ok character_id url prompt)
    | .error e =>
      ({ s with history := s.history ++
           [{ entity_type := "character", entity_id := character_id,
              prompt_used := prompt, success := false, error_message := some e }] },
       .serverError ("Avatar generation failed: " ++ e))

/-! ## Character creation retry loop
(character_routes.py, `create_character`, lines 103-131) -/

/-- Outcome of one `db.add; db.commit` of a new character row. -/
inductive InsertOutcome where
  | ok
  | integrityError
  | otherError (msg : String)
deriving DecidableEq, Repr

inductive CreateResult where
  | created (code : String)
  | serverError (detail : String)
deriving DecidableEq, Repr

/-- The message of the exception raised when `generate_code` exhausts its five
attempts (character_routes.py line 59, with `max_retries = 5`). -/
def genFailMsg (pfx : String) : String :=
  "Failed to generate unique code after 5 attempts for prefix " ++ pfx

/-- The `for attempt in range(max_retries)` loop of `create_character`:
`codeResult` is the (deterministic, single-threaded) result of
`generate_code`; `inserts attempt` is the outcome of the commit on that
attempt.  The second component records the sleeps performed, in deciseconds
(`asyncio.sleep(0.1 * (attempt + 1))`, line 126, runs only in the
`IntegrityError` branch).  A `generate_code` failure is a plain `Exception`,
caught by the generic handler (lines 127-129) and surfaced as HTTP 500
without further attempts; exhausting the loop raises the final HTTP 500 of
line 131. -/
def create_characterLoop (pfx : String) (codeResult : Option String)
    (inserts : Nat → InsertOutcome) : Nat → Nat → CreateResult × List Nat
  | _, 0 =>
    (.serverError
      "Failed to create character after multiple retries due to unique code generation conflict.",
     [])
  | attempt, rem + 1 =>
    match codeResult with
    | none => (.serverError ("Failed to create character: " ++ genFailMsg pfx), [])
    | some code =>
      match inserts attempt with
      | .ok => (.created code, [])
      | .otherError msg => (.serverError ("Failed to create character: " ++ msg), [])
      | .integrityError =>
        let (r, sleeps) := create_characterLoop pfx codeResult inserts (attempt + 1) rem
        (r, (attempt + 1) :: sleeps)

/-- `create_character` with its `max_retries = 5`. -/
def create_character (pfx : String) (codeResult : Option String)
    (inserts : Nat → InsertOutcome) : CreateResult × List Nat :=
  create_characterLoop pfx codeResult inserts 0 5

/-! ## Search (character_routes.py, `search_characters`, lines 368-391) -/

/-- Is the first list a contiguous sublist of the second? -/
def listInfix (pat : List Char) : List Char → Bool
  | [] => listStarts pat []
  | b :: bs => listStarts pat (b :: bs) || listInfix pat bs

/-- Case-insensitive substring match, modelling `name ILIKE '%pat%'`. -/
def ilikeContains (pat s : String) : Bool :=
  listInfix pat.toLower.data s.toLower.data

/-- The search endpoint: each filter is applied only when its parameter is
truthy (`if name:`, `if min_age:`, `if max_age:`), except `has_avatar`,
which is applied whenever it is not `None`; an SQL comparison against a NULL
age excludes the row. -/
def search_characters (name : Option String) (min_age max_age : Option Int)
    (has_avatar : Option Bool) (chars : List CharacterRow) : List CharacterRow :=
  let q := chars
  let q := if strTruthy name
           then q.filter (fun c => ilikeContains (name.getD "") c.name) else q
  let q := if intTruthy min_age
           then q.filter (fun c =>
             match c.age with
             | some a => min_age.getD 0 ≤ a
             | none => false)
           else q
  let q := if intTruthy max_age
           then q.filter (fun c =>
             match c.age with
             | some a => a ≤ max_age.getD 0
             | none => false)
           else q
  match has_avatar with
  | none => q
  | some true => q.filter (fun c => c.image_url.isSome)
  | some false => q.filter (fun c => c.image_url.isNone)

/-! ## Analytics (character_routes.py, `get_character_analytics`, lines 393-426) -/

structure CharacterAnalytics where
  total_characters : Nat
  average_age : Rat
  age_groups : List (String × Nat)
  characters_with_avatars : Nat
  recent_creations : Nat
deriving DecidableEq, Repr

/-- Round half to even, as Python's `round` (the source rounds the average to
one decimal; Python rounds the nearest binary double, modelled here exactly
on rationals — no claim under study depends on a float tie). -/
def roundHalfEven (q : Rat) : Int :=
  if q - ⌊q⌋ < 1 / 2 then ⌊q⌋
  else if q - ⌊q⌋ > 1 / 2 then ⌊q⌋ + 1
  else if ⌊q⌋ % 2 = 0 then ⌊q⌋ else ⌊q⌋ + 1

/-- Models Python's `round(x, 1)`. -/
def roundTo1 (q : Rat) : Rat := (roundHalfEven (10 * q) : Rat) / 10

/-- Python truthiness bucket test `c.age and lo <= c.age <= hi`. -/
def inAgeBucket (c : CharacterRow) (lo hi : Int) : Bool :=
  intTruthy c.age && (lo ≤ c.age.getD 0 && c.age.getD 0 ≤ hi)

/-- Python truthiness bucket test `c.age and c.age >= lo`. -/
def inAgeBucketGe (c : CharacterRow) (lo : Int) : Bool :=
  intTruthy c.age && lo ≤ c.age.getD 0

/-- The analytics endpoint.  An empty characters table short-circuits to the
all-zero summary (lines 398-405); otherwise the average of the non-`None`
ages is rounded to one decimal and the truthiness-guarded age buckets are
counted. -/
def get_character_analytics (chars : List CharacterRow) : CharacterAnalytics :=
  if chars = [] then
    { total_characters := 0, average_age := 0, age_groups := [],
      characters_with_avatars := 0, recent_creations := 0 }
  else
    let valid_ages := chars.filterMap (fun c => c.age)
    let average_age : Rat :=
      if valid_ages ≠ [] then
        ((valid_ages.foldl (· + ·) 0 : Int) : Rat) / (valid_ages.length : Rat)
      else 0
    { total_characters := chars.length,
      average_age := roundTo1 average_age,
      age_groups :=
        [("Child (0-12)", (chars.filter (fun c => intTruthy c.age && c.age.getD 0 ≤ 12)).length),
         ("Teen (13-19)", (chars.filter (fun c => inAgeBucket c 13 19)).length),
         ("Adult (20-64)", (chars.filter (fun c => inAgeBucket c 20 64)).length),
         ("Elder (65+)", (chars.filter (fun c => inAgeBucketGe c 65)).length)],
      characters_with_avatars := (chars.filter (fun c => strTruthy c.image_url)).length,
      recent_creations := chars.length }

/-! # Lemmas

## Decimal digit facts -/

theorem digitVal_digitChar {d : Nat} (h : d < 10) : digitVal (digitChar d) = d := by
  interval_cases d <;> rfl

theorem isDigitChar_digitChar (d : Nat) : isDigitChar (digitChar d) = true := by
  rcases d with _ | _ | _ | _ | _ | _ | _ | _ | _ | d <;> rfl

theorem digitChar_ne_dash (d : Nat) : digitChar d ≠ '-' := by
  rcases d with _ | _ | _ | _ | _ | _ | _ | _ | _ | d <;> simp [digitChar]

theorem digitVal_le_of_isDigitChar {c : Char} (h : isDigitChar c = true) :
    digitVal c ≤ 9 := by
  unfold isDigitChar at h
  simp only [Bool.and_eq_true, decide_eq_true_eq] at h
  unfold digitVal
  omega

theorem natDigitsAux_spec :
    ∀ fuel n, n < fuel →
      natDigitsAux fuel n ≠ [] ∧
      (∀ c ∈ natDigitsAux fuel n, ∃ d, d < 10 ∧ c = digitChar d) ∧
      digitsVal (natDigitsAux fuel n) = n := by
  intro fuel
  induction fuel with
  | zero => intro n h; omega
  | succ fuel ih =>
    intro n h
    by_cases h10 : n < 10
    · refine ⟨by simp [natDigitsAux, h10], ?_, ?_⟩
      · intro c hc
        simp [natDigitsAux, h10] at hc
        exact ⟨n, h10, hc⟩
      · simp [natDigitsAux, h10, digitsVal, digitVal_digitChar h10]
    · have hpos : 0 < n := by omega
      have hdiv : n / 10 < fuel :=
        lt_of_lt_of_le (Nat.div_lt_self hpos (by omega)) (by omega)
      obtain ⟨h1, h2, h3⟩ := ih (n / 10) hdiv
      rw [show natDigitsAux (fuel + 1) n
            = natDigitsAux fuel (n / 10) ++ [digitChar (n % 10)] by
          simp [natDigitsAux, h10]]
      refine ⟨by simp, ?_, ?_⟩
      · intro c hc
        rcases List.mem_append.mp hc with hc | hc
        · exact h2 c hc
        · simp at hc
          exact ⟨n % 10, Nat.mod_lt n (by omega), hc⟩
      · unfold digitsVal at h3 ⊢
        rw [List.foldl_append]
        simp [h3, digitVal_digitChar (Nat.mod_lt n (by omega))]
        omega

theorem natDigits_ne_nil (n : Nat) : natDigits n ≠ [] :=
  (natDigitsAux_spec (n + 1) n (Nat.lt_succ_self n)).1

theorem natDigits_digits (n : Nat) :
    ∀ c ∈ natDigits n, ∃ d, d < 10 ∧ c = digitChar d :=
  (natDigitsAux_spec (n + 1) n (Nat.lt_succ_self n)).2.1

theorem digitsVal_natDigits (n : Nat) : digitsVal (natDigits n) = n :=
  (natDigitsAux_spec (n + 1) n (Nat.lt_succ_self n)).2.2

/-- Folding digit characters starting from accumulator `a`. -/
theorem foldl_digits (l : List Char) :
    ∀ a : Nat, l.foldl (fun a c => 10 * a + digitVal c) a
      = a * 10 ^ l.length + digitsVal l := by
  induction l with
  | nil => intro a; simp [digitsVal]
  | cons c t iht =>
    intro a
    simp only [List.foldl_cons, List.length_cons]
    rw [iht (10 * a + digitVal c)]
    have h2 : digitsVal (c :: t) = digitVal c * 10 ^ t.length + digitsVal t := by
      unfold digitsVal
      simp only [List.foldl_cons, Nat.mul_zero, Nat.zero_add]
      exact iht (digitVal c)
    rw [h2]
    ring

theorem digitsVal_cons (c : Char) (t : List Char) :
    digitsVal (c :: t) = digitVal c * 10 ^ t.length + digitsVal t := by
  unfold digitsVal
  simp only [List.foldl_cons, Nat.mul_zero, Nat.zero_add]
  exact foldl_digits t (digitVal c)

theorem digitsVal_lt (l : List Char) (h : ∀ c ∈ l, isDigitChar c = true) :
    digitsVal l < 10 ^ l.length := by
  induction l with
  | nil => simp [digitsVal]
  | cons c t iht =>
    rw [digitsVal_cons]
    have hc : digitVal c ≤ 9 := digitVal_le_of_isDigitChar (h c (by simp))
    have ht : digitsVal t < 10 ^ t.length := iht (fun x hx => h x (by simp [hx]))
    simp only [List.length_cons, pow_succ]
    nlinarith

theorem digitsVal_replicate_zero_append (k : Nat) (l : List Char) :
    digitsVal (List.replicate k '0' ++ l) = digitsVal l := by
  induction k with
  | zero => simp
  | succ k ihk =>
    unfold digitsVal at ihk ⊢
    simp only [List.replicate_succ, List.cons_append, List.foldl_cons]
    have : 10 * 0 + digitVal '0' = 0 := by decide
    rw [this]
    exact ihk

/-! ## pad4 and parse roundtrip -/

theorem pad4_data (n : Nat) :
    (pad4 n).data = List.replicate (4 - (natDigits n).length) '0' ++ natDigits n := rfl

theorem pad4_ne_empty (n : Nat) : (pad4 n).data ≠ [] := by
  rw [pad4_data]
  intro h
  exact natDigits_ne_nil n (List.append_eq_nil.mp h).2

theorem pad4_all_digits (n : Nat) : ∀ c ∈ (pad4 n).data, isDigitChar c = true := by
  rw [pad4_data]
  intro c hc
  rcases List.mem_append.mp hc with hc | hc
  · rw [List.eq_of_mem_replicate hc]; rfl
  · obtain ⟨d, _, rfl⟩ := natDigits_digits n c hc
    exact isDigitChar_digitChar d

theorem pad4_no_dash (n : Nat) : ∀ c ∈ (pad4 n).data, c ≠ '-' := by
  rw [pad4_data]
  intro c hc
  rcases List.mem_append.mp hc with hc | hc
  · rw [List.eq_of_mem_replicate hc]; decide
  · obtain ⟨d, _, rfl⟩ := natDigits_digits n c hc
    exact digitChar_ne_dash d

theorem digitsVal_pad4 (n : Nat) : digitsVal (pad4 n).data = n := by
  rw [pad4_data, digitsVal_replicate_zero_append, digitsVal_natDigits]

theorem pyInt_pad4 (n : Nat) : pyInt (pad4 n) = some n := by
  unfold pyInt
  rw [if_pos ⟨pad4_ne_empty n, List.all_eq_true.mpr (pad4_all_digits n)⟩,
    digitsVal_pad4]

/-! ## afterLastDash and parse roundtrip -/

theorem takeWhile_append_cons {α : Type} {p : α → Bool} {l₁ : List α} (x : α)
    (l₂ : List α) (h : ∀ a ∈ l₁, p a = true) (hx : p x = false) :
    (l₁ ++ x :: l₂).takeWhile p = l₁ := by
  induction l₁ with
  | nil => simp [List.takeWhile_cons, hx]
  | cons a as ih =>
    have ha : p a = true := h a (by simp)
    simp [List.cons_append, List.takeWhile_cons, ha,
      ih (fun b hb => h b (by simp [hb]))]

theorem mkCode_data (pfx : String) (n : Nat) :
    (mkCode pfx n).data = pfx.data ++ '-' :: (pad4 n).data := by
  simp [mkCode, String.data_append]

theorem afterLastDash_mkCode (pfx : String) (n : Nat) :
    afterLastDash (mkCode pfx n) = pad4 n := by
  unfold afterLastDash
  rw [mkCode_data, List.reverse_append, List.reverse_cons, List.append_assoc,
    List.singleton_append]
  rw [takeWhile_append_cons '-' pfx.data.reverse
    (fun a ha => by
      simp only [decide_eq_true_eq]
      exact pad4_no_dash n a (List.mem_reverse.mp ha))
    (by simp)]
  rw [List.reverse_reverse]

theorem parseSuffix_mkCode (pfx : String) (n : Nat) : parseSuffix (mkCode pfx n) = n := by
  unfold parseSuffix
  rw [afterLastDash_mkCode, pyInt_pad4]
  rfl

theorem mkCode_inj {pfx : String} {a b : Nat} (h : mkCode pfx a = mkCode pfx b) :
    a = b := by
  have h2 := congrArg parseSuffix h
  rwa [parseSuffix_mkCode, parseSuffix_mkCode] at h2

/-! ## listStarts -/

theorem listStarts_append (l r : List Char) : listStarts l (l ++ r) = true := by
  induction l with
  | nil => rfl
  | cons a as ih => simp [listStarts, ih]

theorem listStarts_mono {p r s : List Char} (h : listStarts (p ++ r) s = true) :
    listStarts p s = true := by
  induction p generalizing s with
  | nil => rfl
  | cons a as ih =>
    cases s with
    | nil => exact absurd h (by simp [listStarts])
    | cons b bs =>
      simp only [List.cons_append, listStarts, Bool.and_eq_true] at h ⊢
      exact ⟨h.1, ih h.2⟩

theorem codeMatches_mkCode (pfx : String) (n : Nat) :
    codeMatches pfx (mkCode pfx n) = true := by
  unfold codeMatches
  have h : (mkCode pfx n).data = (pfx ++ "-").data ++ (pad4 n).data := by
    rw [mkCode_data, String.data_append]
    simp
  rw [h]
  exact listStarts_append _ _

theorem listStarts_pfx_mkCode (pfx : String) (n : Nat) :
    listStarts pfx.data (mkCode pfx n).data = true := by
  rw [mkCode_data]
  exact listStarts_append _ _

/-! ## lexMax -/

theorem lexMax_eq_none {l : List String} : lexMax l = none ↔ l = [] := by
  cases l <;> simp [lexMax]

theorem char_eq_of_toNat_eq {a b : Char} (h : a.toNat = b.toNat) : a = b :=
  Char.ext (UInt32.ext h)

theorem lexLtChars_irrefl : ∀ l, lexLtChars l l = false := by
  intro l
  induction l with
  | nil => rfl
  | cons a as ih => simp [lexLtChars, ih]

theorem lexLtChars_trans : ∀ {l₁ l₂ l₃ : List Char}, lexLtChars l₁ l₂ = true →
    lexLtChars l₂ l₃ = true → lexLtChars l₁ l₃ = true := by
  intro l₁
  induction l₁ with
  | nil =>
    intro l₂ l₃ h12 h23
    cases l₂ with
    | nil => simp [lexLtChars] at h12
    | cons b bs =>
      cases l₃ with
      | nil => simp [lexLtChars] at h23
      | cons c cs => rfl
  | cons a as ih =>
    intro l₂ l₃ h12 h23
    cases l₂ with
    | nil => simp [lexLtChars] at h12
    | cons b bs =>
      cases l₃ with
      | nil => simp [lexLtChars] at h23
      | cons c cs =>
        simp only [lexLtChars] at h12 h23 ⊢
        by_cases hab : a.toNat < b.toNat
        · by_cases hbc : b.toNat < c.toNat
          · simp [show a.toNat < c.toNat by omega]
          · rw [if_neg hbc] at h23
            by_cases hcb : c.toNat < b.toNat
            · rw [if_pos hcb] at h23
              exact Bool.noConfusion h23
            · simp [show a.toNat < c.toNat by omega]
        · rw [if_neg hab] at h12
          by_cases hba : b.toNat < a.toNat
          · rw [if_pos hba] at h12
            exact Bool.noConfusion h12
          · rw [if_neg hba] at h12
            by_cases hbc : b.toNat < c.toNat
            · simp [show a.toNat < c.toNat by omega]
            · rw [if_neg hbc] at h23
              by_cases hcb : c.toNat < b.toNat
              · rw [if_pos hcb] at h23
                exact Bool.noConfusion h23
              · rw [if_neg hcb] at h23
                rw [if_neg (show ¬ a.toNat < c.toNat by omega),
                  if_neg (show ¬ c.toNat < a.toNat by omega)]
                exact ih h12 h23

theorem lexLtChars_connex : ∀ {l₁ l₂ : List Char}, lexLtChars l₁ l₂ = false →
    lexLtChars l₂ l₁ = false → l₁ = l₂ := by
  intro l₁
  induction l₁ with
  | nil =>
    intro l₂ h12 _
    cases l₂ with
    | nil => rfl
    | cons b bs => simp [lexLtChars] at h12
  | cons a as ih =>
    intro l₂ h12 h21
    cases l₂ with
    | nil => simp [lexLtChars] at h21
    | cons b bs =>
      simp only [lexLtChars] at h12 h21
      by_cases hab : a.toNat < b.toNat
      · rw [if_pos hab] at h12
        exact Bool.noConfusion h12
      · by_cases hba : b.toNat < a.toNat
        · rw [if_pos hba] at h21
          exact Bool.noConfusion h21
        · rw [if_neg hab, if_neg hba] at h12
          rw [if_neg hba, if_neg hab] at h21
          rw [char_eq_of_toNat_eq (show a.toNat = b.toNat by omega), ih h12 h21]

theorem lexLt_asymm {a b : String} (h : lexLt a b = true) : lexLt b a = false := by
  unfold lexLt at h ⊢
  cases hba : lexLtChars b.data a.data with
  | false => rfl
  | true =>
    have h2 := lexLtChars_trans h hba
    rw [lexLtChars_irrefl] at h2
    exact Bool.noConfusion h2

theorem lexLt_neg_trans {c m x : String} (hcm : lexLt c m = false)
    (hmx : lexLt m x = false) : lexLt c x = false := by
  unfold lexLt at hcm hmx ⊢
  cases hcx : lexLtChars c.data x.data with
  | false => rfl
  | true =>
    exfalso
    cases hmc : lexLtChars m.data c.data with
    | false =>
      have he : m.data = c.data := lexLtChars_connex hmc hcm
      rw [he] at hmx
      rw [hmx] at hcx
      exact Bool.noConfusion hcx
    | true =>
      have h2 := lexLtChars_trans hmc hcx
      rw [hmx] at h2
      exact Bool.noConfusion h2

theorem lexMax_mem {l : List String} : ∀ {m : String}, lexMax l = some m → m ∈ l := by
  induction l with
  | nil => intro m h; simp [lexMax] at h
  | cons c cs ih =>
    intro m h
    simp only [lexMax] at h
    cases hcs : lexMax cs with
    | none =>
      rw [hcs] at h
      simp only [Option.some_inj] at h
      simp [← h]
    | some m' =>
      rw [hcs] at h
      simp only [Option.some_inj] at h
      by_cases hlt : lexLt c m' = true
      · rw [if_pos hlt] at h
        subst h
        exact List.mem_cons_of_mem _ (ih hcs)
      · rw [if_neg hlt] at h
        simp [← h]

theorem lexMax_not_lt {l : List String} : ∀ {m : String}, lexMax l = some m →
    ∀ x ∈ l, lexLt m x = false := by
  induction l with
  | nil => intro m _ x hx; simp at hx
  | cons c cs ih =>
    intro m h x hx
    simp only [lexMax] at h
    cases hcs : lexMax cs with
    | none =>
      have hnil : cs = [] := lexMax_eq_none.mp hcs
      rw [hcs] at h
      simp only [Option.some_inj] at h
      subst hnil
      simp at hx
      subst hx
      rw [← h]
      exact lexLtChars_irrefl _
    | some m' =>
      rw [hcs] at h
      simp only [Option.some_inj] at h
      rcases List.mem_cons.mp hx with hxc | hx
      · rw [hxc]
        by_cases hlt : lexLt c m' = true
        · rw [if_pos hlt] at h
          subst h
          exact lexLt_asymm hlt
        · rw [if_neg hlt] at h
          subst h
          exact lexLtChars_irrefl _
      · have hm'x := ih hcs x hx
        by_cases hlt : lexLt c m' = true
        · rw [if_pos hlt] at h
          subst h
          exact hm'x
        · rw [if_neg hlt] at h
          subst h
          exact lexLt_neg_trans (by simpa using hlt) hm'x

/-! ## generate_code structure -/

theorem generate_codeLoop_fst (pfx : String) (t : List String) :
    ∀ fuel, 0 < fuel →
      (generate_codeLoop pfx t fuel).1 = generate_code_attempt pfx t := by
  intro fuel
  induction fuel with
  | zero => intro h; omega
  | succ fuel ih =>
    intro _
    cases h : generate_code_attempt pfx t with
    | some c => simp [generate_codeLoop, h]
    | none =>
      simp only [generate_codeLoop, h]
      cases fuel with
      | zero => simp [generate_codeLoop]
      | succ fuel2 =>
        rw [ih (Nat.succ_pos fuel2)]
        exact h

theorem generate_codeLoop_sleeps (pfx : String) (t : List String) :
    ∀ fuel, (generate_codeLoop pfx t fuel).2 = [] := by
  intro fuel
  induction fuel with
  | zero => rfl
  | succ fuel ih =>
    cases h : generate_code_attempt pfx t with
    | some c => simp [generate_codeLoop, h]
    | none => simp only [generate_codeLoop, h]; exact ih

theorem generate_code_eq_attempt (pfx : String) (t : List String) :
    generate_code pfx t = generate_code_attempt pfx t :=
  generate_codeLoop_fst pfx t 5 (by omega)

/-- On `models.Character` — the one model class that declares `char_code` —
the full attribute-dispatching loop coincides with `generate_codeLoop`. -/
theorem generate_codeFull_character (pfx : String) (table : List String) :
    ∀ fuel attempt, generate_codeFull pfx Character_model table attempt fuel
      = generate_codeLoop pfx table fuel := by
  intro fuel
  induction fuel with
  | zero => intro _; rfl
  | succ fuel ih =>
    intro attempt
    simp only [generate_codeFull, generate_codeLoop, generate_code_attemptFull]
    rw [if_neg (by decide : ¬ Character_model.codeAttrName ≠ "char_code")]
    cases h : generate_code_attempt pfx table with
    | some c => rfl
    | none => exact ih (attempt + 1)

theorem attempt_eq_some {pfx : String} {t : List String} {c : String} :
    generate_code_attempt pfx t = some c ↔
      c = mkCode pfx (lastNumber pfx t + 1) ∧
        mkCode pfx (lastNumber pfx t + 1) ∉ t := by
  unfold generate_code_attempt
  by_cases h : mkCode pfx (lastNumber pfx t + 1) ∈ t <;> simp [h, eq_comm]

theorem generate_code_not_mem {pfx : String} {t : List String} {c : String}
    (h : generate_code pfx t = some c) : c ∉ t := by
  rw [generate_code_eq_attempt] at h
  obtain ⟨rfl, hnot⟩ := attempt_eq_some.mp h
  exact hnot

theorem generate_code_shape {pfx : String} {t : List String} {c : String}
    (h : generate_code pfx t = some c) : c = mkCode pfx (lastNumber pfx t + 1) := by
  rw [generate_code_eq_attempt] at h
  exact (attempt_eq_some.mp h).1

theorem attempt_step {pfx : String} {t : List String} {c c' : String}
    (h1 : generate_code_attempt pfx t = some c)
    (h2 : generate_code_attempt pfx (c :: t) = some c') :
    parseSuffix c' = parseSuffix c + 1 := by
  obtain ⟨rfl, hnot⟩ := attempt_eq_some.mp h1
  obtain ⟨rfl, hnot'⟩ := attempt_eq_some.mp h2
  set k := lastNumber pfx t with hk
  have hfilter : (mkCode pfx (k + 1) :: t).filter (fun x => codeMatches pfx x)
      = mkCode pfx (k + 1) :: t.filter (fun x => codeMatches pfx x) := by
    simp [List.filter_cons, codeMatches_mkCode]
  have hcases : lastNumber pfx (mkCode pfx (k + 1) :: t) = k + 1
      ∨ lastNumber pfx (mkCode pfx (k + 1) :: t) = k := by
    cases hm : lexMax (t.filter (fun x => codeMatches pfx x)) with
    | none =>
      left
      unfold lastNumber
      rw [hfilter]
      simp [lexMax, hm, parseSuffix_mkCode]
    | some m =>
      have hkm : k = parseSuffix m := by
        rw [hk]
        unfold lastNumber
        rw [hm]
      cases hlt : lexLt (mkCode pfx (k + 1)) m with
      | false =>
        left
        unfold lastNumber
        rw [hfilter]
        simp only [lexMax, hm]
        rw [if_neg (by simp [hlt]), parseSuffix_mkCode]
      | true =>
        right
        unfold lastNumber
        rw [hfilter]
        simp only [lexMax, hm]
        rw [if_pos hlt, hkm]
  rcases hcases with he | he
  · rw [he, parseSuffix_mkCode, parseSuffix_mkCode]
  · exfalso
    rw [he] at hnot'
    exact hnot' (List.mem_cons_self _ _)

/-! ## Runs of generate_code are strictly increasing -/

theorem genRun_head {pfx : String} {t : List String} {n : Nat} {b : String}
    (h : (genRun pfx t n).head? = some b) : generate_code pfx t = some b := by
  cases n with
  | zero => simp [genRun] at h
  | succ n =>
    unfold genRun at h
    cases hg : generate_code pfx t with
    | none => rw [hg] at h; simp at h
    | some c =>
      rw [hg] at h
      simp only [List.head?_cons, Option.some_inj] at h
      rw [h]

theorem genRun_chain (pfx : String) :
    ∀ (n : Nat) (t : List String),
      List.Chain' (fun a b => parseSuffix a < parseSuffix b) (genRun pfx t n) := by
  intro n
  induction n with
  | zero => intro t; simp [genRun]
  | succ n ih =>
    intro t
    unfold genRun
    cases hg : generate_code pfx t with
    | none => simp
    | some c =>
      simp only []
      rw [List.chain'_cons']
      refine ⟨?_, ih (c :: t)⟩
      intro b hb
      have hgb : generate_code pfx (c :: t) = some b :=
        genRun_head (Option.mem_def.mp hb)
      have hstep := attempt_step
        (by rwa [generate_code_eq_attempt] at hg)
        (by rwa [generate_code_eq_attempt] at hgb)
      omega

theorem parseSuffix_lt_trans :
    IsTrans String (fun a b => parseSuffix a < parseSuffix b) :=
  ⟨fun _ _ _ h1 h2 => lt_trans h1 h2⟩

theorem genRun_pairwise_lt (pfx : String) (t : List String) (n : Nat) :
    (genRun pfx t n).Pairwise (fun a b => parseSuffix a < parseSuffix b) :=
  @List.chain'_iff_pairwise _ _ parseSuffix_lt_trans _ |>.mp (genRun_chain pfx n t)

theorem genRun_pairwise_ne (pfx : String) (t : List String) (n : Nat) :
    (genRun pfx t n).Pairwise (· ≠ ·) :=
  (genRun_pairwise_lt pfx t n).imp
    (fun h he => by rw [he] at h; exact lt_irrefl _ h)

/-! ## Lexicographic order of equal-width digit strings agrees with value order -/

theorem lexLtChars_of_digitsVal_lt :
    ∀ (l₁ l₂ : List Char), l₁.length = l₂.length →
      (∀ c ∈ l₁, isDigitChar c = true) → (∀ c ∈ l₂, isDigitChar c = true) →
      digitsVal l₁ < digitsVal l₂ → lexLtChars l₁ l₂ = true := by
  intro l₁
  induction l₁ with
  | nil =>
    intro l₂ hlen _ _ hv
    cases l₂ with
    | nil => exact absurd hv (by simp [digitsVal])
    | cons b bs => simp at hlen
  | cons a as ih =>
    intro l₂ hlen h1 h2 hv
    cases l₂ with
    | nil => simp at hlen
    | cons b bs =>
      have hlen' : as.length = bs.length := by simpa using hlen
      rw [digitsVal_cons, digitsVal_cons, hlen'] at hv
      have hda : isDigitChar a = true := h1 a (by simp)
      have hdb : isDigitChar b = true := h2 b (by simp)
      have hbound_as : digitsVal as < 10 ^ bs.length := by
        rw [← hlen']
        exact digitsVal_lt as (fun c hc => h1 c (by simp [hc]))
      have hbound_bs : digitsVal bs < 10 ^ bs.length :=
        digitsVal_lt bs (fun c hc => h2 c (by simp [hc]))
      have ha' : 48 ≤ a.toNat ∧ a.toNat ≤ 57 := by
        have := hda
        unfold isDigitChar at this
        simpa using this
      have hb' : 48 ≤ b.toNat ∧ b.toNat ≤ 57 := by
        have := hdb
        unfold isDigitChar at this
        simpa using this
      simp only [lexLtChars]
      by_cases hab : a.toNat < b.toNat
      · simp [hab]
      · by_cases hba : b.toNat < a.toNat
        · exfalso
          have hd : digitVal b < digitVal a := by
            unfold digitVal
            omega
          have hp : 0 < 10 ^ bs.length := Nat.pos_pow_of_pos _ (by omega)
          nlinarith
        · have heq : digitVal a = digitVal b := by
            unfold digitVal
            omega
          rw [if_neg hab, if_neg hba]
          rw [heq] at hv
          exact ih bs hlen'
            (fun c hc => h1 c (by simp [hc]))
            (fun c hc => h2 c (by simp [hc]))
            (by omega)

theorem lexLtChars_append_iff : ∀ (x : List Char) (a b : List Char),
    lexLtChars (x ++ a) (x ++ b) = lexLtChars a b := by
  intro x
  induction x with
  | nil => intro a b; rfl
  | cons c cs ih =>
    intro a b
    simp only [List.cons_append, lexLtChars]
    rw [if_neg (lt_irrefl _), if_neg (lt_irrefl _)]
    exact ih a b

/-! ## pad4 width -/

theorem natDigitsAux_length :
    ∀ fuel n j, n < fuel → n < 10 ^ (j + 1) →
      (natDigitsAux fuel n).length ≤ j + 1 := by
  intro fuel
  induction fuel with
  | zero => intro n j h; omega
  | succ fuel ih =>
    intro n j hfuel hpow
    by_cases h10 : n < 10
    · simp [natDigitsAux, h10]
    · have hj : 1 ≤ j := by
        by_contra hj0
        push_neg at hj0
        interval_cases j
        simp at hpow
        omega
      obtain ⟨i, rfl⟩ : ∃ i, j = i + 1 := ⟨j - 1, by omega⟩
      have hdiv : n / 10 < fuel :=
        lt_of_lt_of_le (Nat.div_lt_self (by omega) (by omega)) (by omega)
      have hdivpow : n / 10 < 10 ^ (i + 1) := by
        rw [Nat.div_lt_iff_lt_mul (by omega)]
        calc n < 10 ^ (i + 1 + 1) := hpow
        _ = 10 ^ (i + 1) * 10 := by ring
      have hlen := ih (n / 10) i hdiv hdivpow
      simp only [natDigitsAux, h10, if_false, List.length_append,
        List.length_cons, List.length_nil]
      omega

theorem pad4_length {n : Nat} (h : n ≤ 9999) : (pad4 n).data.length = 4 := by
  have hle : (natDigits n).length ≤ 4 :=
    natDigitsAux_length (n + 1) n 3 (Nat.lt_succ_self n) (by omega)
  rw [pad4_data]
  simp only [List.length_append, List.length_replicate]
  omega

theorem pad4_lexLt {a b : Nat} (ha : a ≤ 9999) (hb : b ≤ 9999) (h : a < b) :
    lexLtChars (pad4 a).data (pad4 b).data = true := by
  apply lexLtChars_of_digitsVal_lt
  · rw [pad4_length ha, pad4_length hb]
  · exact pad4_all_digits a
  · exact pad4_all_digits b
  · rw [digitsVal_pad4, digitsVal_pad4]
    exact h

theorem mkCode_lexLt (pfx : String) {a b : Nat} (ha : a ≤ 9999) (hb : b ≤ 9999)
    (h : a < b) : lexLt (mkCode pfx a) (mkCode pfx b) = true := by
  unfold lexLt
  rw [mkCode_data, mkCode_data]
  have hx := lexLtChars_append_iff (pfx.data ++ ['-']) (pad4 a).data (pad4 b).data
  simp only [List.append_assoc, List.singleton_append] at hx
  rw [hx]
  exact pad4_lexLt ha hb h

/-! ## On a 4-digit well-formed table the minted suffix beats every suffix present -/

theorem generate_code_gt_all {pfx : String} {t : List String}
    (hwf : WellFormed4 pfx t) {c : String}
    (hc : generate_code pfx t = some c) :
    ∀ d ∈ t, codeMatches pfx d = true → parseSuffix d < parseSuffix c := by
  rw [generate_code_eq_attempt] at hc
  obtain ⟨rfl, hnot⟩ := attempt_eq_some.mp hc
  rw [parseSuffix_mkCode]
  intro d hd hmatch
  have hdf : d ∈ t.filter (fun x => codeMatches pfx x) :=
    List.mem_filter.mpr ⟨hd, hmatch⟩
  cases hm : lexMax (t.filter (fun x => codeMatches pfx x)) with
  | none =>
    rw [lexMax_eq_none.mp hm] at hdf
    simp at hdf
  | some m =>
    have hdm : lexLt m d = false := lexMax_not_lt hm d hdf
    obtain ⟨hmt, hmmatch⟩ := List.mem_filter.mp (lexMax_mem hm)
    obtain ⟨sm, hsm, rfl⟩ := hwf m hmt hmmatch
    obtain ⟨sd, hsd, rfl⟩ := hwf d hd hmatch
    have hln : lastNumber pfx t = sm := by
      unfold lastNumber
      rw [hm]
      simp [parseSuffix_mkCode]
    rw [parseSuffix_mkCode, hln]
    by_contra hlt
    push_neg at hlt
    have hmono := mkCode_lexLt pfx hsm hsd (by omega)
    rw [hmono] at hdm
    exact Bool.noConfusion hdm

/-! ## Image client lemmas -/

theorem append_ne_empty {s t : String} (hs : s.data ≠ []) : s ++ t ≠ "" := by
  intro h
  have h2 := congrArg String.data h
  rw [String.data_append] at h2
  exact hs (List.append_eq_nil.mp (by simpa using h2)).1

theorem gen_image_error_ne {u : UpstreamResult} {e : String}
    (h : generate_image_with_pollinations u = .error e) : e ≠ "" := by
  cases u with
  | response status content =>
    simp only [generate_image_with_pollinations] at h
    by_cases hs : status = 200
    · rw [if_pos hs] at h
      exact Except.noConfusion h
    · rw [if_neg hs] at h
      simp only [Except.error.injEq] at h
      rw [← h]
      exact append_ne_empty (by decide)
  | transportError msg =>
    simp only [generate_image_with_pollinations] at h
    simp only [Except.error.injEq] at h
    rw [← h]
    exact append_ne_empty (by decide)

theorem upstreamOk_of_ok {u : UpstreamResult} {v : String}
    (h : generate_image_with_pollinations u = .ok v) : upstreamOk u = true := by
  cases u with
  | response status content =>
    simp only [generate_image_with_pollinations] at h
    by_cases hs : status = 200
    · simp [upstreamOk, hs]
    · rw [if_neg hs] at h
      exact Except.noConfusion h
  | transportError msg => exact Except.noConfusion h

theorem gen_image_of_fail {u : UpstreamResult} (h : upstreamOk u = false) :
    ∃ e, generate_image_with_pollinations u = .error e := by
  cases u with
  | response status content =>
    simp only [upstreamOk] at h
    simp only [beq_eq_false_iff_ne, ne_eq] at h
    exact ⟨_, by simp only [generate_image_with_pollinations]; rw [if_neg h]⟩
  | transportError msg => exact ⟨_, rfl⟩

theorem gen_image_of_ok {u : UpstreamResult} (h : upstreamOk u = true) :
    ∃ content, u = .response 200 content ∧
      generate_image_with_pollinations u =
        .ok ("data:image/png;base64," ++ base64Encode content) := by
  cases u with
  | response status content =>
    simp only [upstreamOk] at h
    simp only [beq_iff_eq] at h
    subst h
    exact ⟨content, rfl, by simp [generate_image_with_pollinations]⟩
  | transportError msg => exact Bool.noConfusion h

/-! ## Fan-out lemmas -/

theorem okCount_le_length (rs : List (Except String String)) :
    okCount rs ≤ rs.length :=
  List.length_filter_le _ _

theorem collectVariants_length (b : String) :
    ∀ (styles : List String) (rs : List (Except String String)) (i : Nat),
      styles.length = rs.length →
      (collectVariants b i styles rs).length = okCount rs := by
  intro styles
  induction styles with
  | nil =>
    intro rs i h
    cases rs with
    | nil => rfl
    | cons r rr => simp at h
  | cons s ss ih =>
    intro rs i h
    cases rs with
    | nil => simp at h
    | cons r rr =>
      have h' : ss.length = rr.length := by simpa using h
      cases r with
      | error e =>
        simp only [collectVariants, okCount, List.filter_cons]
        rw [ih rr (i + 1) h']
        rfl
      | ok url =>
        simp only [collectVariants, okCount, List.filter_cons, List.length_cons]
        rw [ih rr (i + 1) h']
        rfl

theorem collectVariants_mem (b : String) :
    ∀ (styles : List String) (rs : List (Except String String)) (i : Nat)
      (v : CharacterVariant), v ∈ collectVariants b i styles rs →
      ∃ j, v.variant_id = i + j + 1 ∧
        rs.get? j = some (.ok v.image_url) ∧
        styles.get? j = some v.style ∧
        v.prompt_used = b ++ ", " ++ v.style := by
  intro styles
  induction styles with
  | nil =>
    intro rs i v hv
    cases rs with
    | nil => simp [collectVariants] at hv
    | cons r rr => simp [collectVariants] at hv
  | cons s ss ih =>
    intro rs i v hv
    cases rs with
    | nil => simp [collectVariants] at hv
    | cons r rr =>
      cases r with
      | error e =>
        obtain ⟨j, h1, h2, h3, h4⟩ := ih rr (i + 1) v hv
        exact ⟨j + 1, by omega, by simpa using h2, by simpa using h3, h4⟩
      | ok url =>
        rcases List.mem_cons.mp hv with hveq | hv'
        · subst hveq
          exact ⟨0, by show i + 1 = i + 0 + 1; omega, rfl, rfl, rfl⟩
        · obtain ⟨j, h1, h2, h3, h4⟩ := ih rr (i + 1) v hv'
          exact ⟨j + 1, by omega, by simpa using h2, by simpa using h3, h4⟩

/-! ## Support for claim C2 -/

theorem mkCode_one (pfx : String) : mkCode pfx 1 = pfx ++ "-0001" := by
  apply String.ext
  rw [mkCode_data, String.data_append]
  congr 1

/-! # Claim theorems -/

/-- Claim C1 counterexample: with the legacy 5-digit-suffix code `C-10000`
present, `generate_code` reads `C-9998` back as the lexicographic maximum and
returns `C-9999`, whose numeric suffix 9999 is NOT strictly greater than the
suffix 10000 of the code `C-10000` already present for the prefix, refuting
the claim as stated. -/
theorem claim_C1_counterexample :
    generate_code "C" ["C-9998", "C-10000"] = some "C-9999" ∧
    "C-10000" ∈ ["C-9998", "C-10000"] ∧
    codeMatches "C" "C-10000" = true ∧
    parseSuffix "C-10000" = 10000 ∧
    parseSuffix "C-9999" = 9999 ∧
    ¬ parseSuffix "C-10000" < parseSuffix "C-9999" := by
  refine ⟨by decide, by decide, by decide, by decide, by decide, by decide⟩

/-- Claim C1 (amended): over any single-threaded run of successive
`generate_code` calls for one prefix, with the returned code inserted into
the table between calls and no deletions, the returned codes are strictly
increasing by numeric suffix and pairwise distinct, and a returned code is
never one already present in the table; moreover, when every code present
for the prefix carries a 4-digit zero-padded numeric suffix (value at most
9999), a returned code's suffix is strictly greater than the suffix of every
code already present for that prefix.  (Without the 4-digit well-formedness
condition the last part fails, see the counterexample.) -/
theorem claim_C1 (pfx : String) (table : List String) (n : Nat) :
    (genRun pfx table n).Pairwise (fun a b => parseSuffix a < parseSuffix b) ∧
    (genRun pfx table n).Pairwise (fun a b => a ≠ b) ∧
    (∀ c, generate_code pfx table = some c → c ∉ table) ∧
    (WellFormed4 pfx table → ∀ c, generate_code pfx table = some c →
      ∀ d ∈ table, codeMatches pfx d = true → parseSuffix d < parseSuffix c) :=
  ⟨genRun_pairwise_lt pfx table n, genRun_pairwise_ne pfx table n,
   fun _ hc => generate_code_not_mem hc,
   fun hwf _ hc => generate_code_gt_all hwf hc⟩

/-- Witness for claim C1: the unconditional parts at both a 4-digit table
and the counterexample's 5-digit table, and the well-formed part at a
concrete well-formed table. -/
theorem claim_C1_witness :
    (genRun "C" ["C-0007"] 3).Pairwise (fun a b => parseSuffix a < parseSuffix b) ∧
    (genRun "C" ["C-9998", "C-10000"] 3).Pairwise
      (fun a b => parseSuffix a < parseSuffix b) ∧
    parseSuffix "C-0007" < parseSuffix "C-0008" := by
  have h1 := claim_C1 "C" ["C-0007"] 3
  have h2 := claim_C1 "C" ["C-9998", "C-10000"] 3
  have hwf : WellFormed4 "C" ["C-0007"] := by
    intro c hc _
    simp only [List.mem_singleton] at hc
    subst hc
    exact ⟨7, by omega, by decide⟩
  exact ⟨h1.1, h2.1,
    h1.2.2.2 hwf "C-0008" (by decide) "C-0007" (by decide) (by decide)⟩

/-- When the `char_code` attribute exists (i.e. on `models.Character`) and no
code in the table starts with the prefix, the generator algorithm does
return `prefix ++ "-0001"` — the behaviour claim C2 asserts, realised only
for the one model class that declares the attribute. -/
theorem generate_code_fresh_prefix (pfx : String) (table : List String)
    (h : ∀ c ∈ table, listStarts pfx.data c.data = false) :
    generate_code pfx table = some (pfx ++ "-0001") := by
  have hfilter : table.filter (fun c => codeMatches pfx c) = [] := by
    rw [List.filter_eq_nil_iff]
    intro c hc
    cases hcm : codeMatches pfx c with
    | false => simp
    | true =>
      exfalso
      unfold codeMatches at hcm
      rw [String.data_append] at hcm
      have h2 := listStarts_mono hcm
      rw [h c hc] at h2
      exact Bool.noConfusion h2
  have hln : lastNumber pfx table = 0 := by
    unfold lastNumber
    rw [hfilter]
    rfl
  rw [generate_code_eq_attempt, attempt_eq_some]
  constructor
  · rw [hln, ← mkCode_one]
  · intro hmem
    have h2 := h _ hmem
    rw [listStarts_pfx_mkCode] at h2
    exact Bool.noConfusion h2

/-- Claim C2 evidence (code bug): `generate_code` reads the hard-coded
attribute `model_class.char_code` (character_routes.py lines 33-35, 50),
which only `Character` declares; called with `models.Costume` (line 270) or
`models.AgeState` (line 330), every attempt raises `AttributeError`, runs
the handler's sleep, and after the five attempts `generate_code` raises
instead of returning `<prefix>-0001` — even on an empty table.  On
`models.Character`, where the attribute exists, an empty table does yield
`C-0001`, and `generate_code_fresh_prefix` shows that behaviour for every
fresh prefix. -/
theorem claim_C2 :
    Character_model.codeAttrName = "char_code" ∧
    Costume_model.codeAttrName = "costume_code" ∧
    AgeState_model.codeAttrName = "age_code" ∧
    generate_code_model "CO" Costume_model [] = (none, [1, 2, 3, 4, 5]) ∧
    generate_code_model "A" AgeState_model [] = (none, [1, 2, 3, 4, 5]) ∧
    generate_code_model "C" Character_model [] = (some ("C" ++ "-0001"), []) := by
  refine ⟨rfl, rfl, rfl, by decide, by decide, by decide⟩

/-- Claim C3 evidence (code bug): in models.py the `char_code` column of
`Character` carries no `unique=True`, unlike the code columns of `Costume`,
`AgeState` and `CharacterChange`, so the declared characters schema accepts
a duplicate `C-0001` where the costumes schema rejects a duplicate
`CO-0001`. -/
theorem claim_C3 :
    character_char_code.uniq = false ∧
    costume_costume_code.uniq = true ∧
    age_state_age_code.uniq = true ∧
    character_change_change_code.uniq = true ∧
    insertCode character_char_code ["C-0001"] "C-0001" =
      some ["C-0001", "C-0001"] ∧
    insertCode costume_costume_code ["CO-0001"] "CO-0001" = none := by
  refine ⟨rfl, rfl, rfl, rfl, by decide, by decide⟩

/-- Claim C8 counterexample: a persistent pre-existence-check collision (the
minted candidate `C-10000` is always already present) makes `generate_code`
consume all 5 attempts via `continue` and fail, but the sleep trace is empty:
the claimed "waiting base delay times the attempt number between attempts"
never happens on this path, and `create_character` surfaces the failure as an
immediate server error without further outer attempts. -/
theorem claim_C8_counterexample :
    generate_codeLoop "C" ["C-9999", "C-10000"] 5 = (none, []) ∧
    create_character "C" (generate_code "C" ["C-9999", "C-10000"])
      (fun _ => InsertOutcome.ok) =
      (CreateResult.serverError ("Failed to create character: " ++ genFailMsg "C"),
       []) := by
  refine ⟨by decide, by decide⟩

/-- Claim C8 (amended): the entity-creation retry ceiling is 5 attempts and
exhaustion surfaces a server error, but the backoff wait occurs only on the
uniqueness-constraint (`IntegrityError`) path — `asyncio.sleep(0.1 * (attempt
+ 1))` runs between the 5 insert attempts there, recorded here in deciseconds
as [1, 2, 3, 4, 5] — whereas pre-existence-check collisions retry inside
`generate_code` with no sleep at all, and its exhaustion is surfaced by
`create_character` as an immediate server error. -/
theorem claim_C8 (pfx : String) (table : List String) (code : String)
    (inserts : Nat → InsertOutcome)
    (hall : ∀ a, a < 5 → inserts a = InsertOutcome.integrityError)
    (hfail : generate_code pfx table = none) :
    (generate_codeLoop pfx table 5).2 = [] ∧
    create_character pfx (some code) inserts =
      (CreateResult.serverError
        "Failed to create character after multiple retries due to unique code generation conflict.",
       [1, 2, 3, 4, 5]) ∧
    create_character pfx (generate_code pfx table) inserts =
      (CreateResult.serverError ("Failed to create character: " ++ genFailMsg pfx),
       []) := by
  refine ⟨generate_codeLoop_sleeps pfx table 5, ?_, ?_⟩
  · simp [create_character, create_characterLoop, hall 0 (by omega),
      hall 1 (by omega), hall 2 (by omega), hall 3 (by omega), hall 4 (by omega)]
  · rw [hfail]
    rfl

/-- Witness for claim C8 at a concrete persistently-colliding state. -/
theorem claim_C8_witness :
    create_character "C" (some "C-0001") (fun _ => InsertOutcome.integrityError) =
      (CreateResult.serverError
        "Failed to create character after multiple retries due to unique code generation conflict.",
       [1, 2, 3, 4, 5]) ∧
    create_character "C" (generate_code "C" ["C-9999", "C-10000"])
      (fun _ => InsertOutcome.integrityError) =
      (CreateResult.serverError ("Failed to create character: " ++ genFailMsg "C"),
       []) := by
  have h := claim_C8 "C" ["C-9999", "C-10000"] "C-0001"
    (fun _ => InsertOutcome.integrityError) (fun _ _ => rfl) (by decide)
  exact ⟨h.2.1, h.2.2⟩

/-- Claim C9: analytics on an empty character table returns the all-zero
summary (zero totals, empty age-group dictionary, average age 0 — the falsy
"empty" value of the optional average field) without failing. -/
theorem claim_C9 :
    get_character_analytics [] =
      { total_characters := 0, average_age := 0, age_groups := [],
        characters_with_avatars := 0, recent_creations := 0 } := rfl

/-- Claim C10: a character search with `min_age = 0` (or `max_age = 0`)
returns exactly the same rows as the same search with that parameter absent,
because the filter is applied only when the parameter is truthy. -/
theorem claim_C10 (name : Option String) (other : Option Int)
    (has_avatar : Option Bool) (chars : List CharacterRow) :
    search_characters name (some 0) other has_avatar chars =
      search_characters name none other has_avatar chars ∧
    search_characters name other (some 0) has_avatar chars =
      search_characters name other none has_avatar chars :=
  ⟨rfl, rfl⟩

/-- Claim C6: the image client returns a value exactly when the upstream
response has status 200, in which case the value is the response bytes
base64-encoded inside a `data:image/png;base64,` inline reference; any
non-200 status yields a generation-failed error carrying the status, and any
transport-level failure yields a generation-failed error carrying the
transport message. -/
theorem claim_C6 (u : UpstreamResult) :
    ((∃ v, generate_image_with_pollinations u = .ok v) ↔
      (∃ content, u = .response 200 content)) ∧
    (∀ content, u = .response 200 content →
      generate_image_with_pollinations u =
        .ok ("data:image/png;base64," ++ base64Encode content)) ∧
    (∀ status content, u = .response status content → status ≠ 200 →
      generate_image_with_pollinations u =
        .error ("Image generation failed: API returned status " ++ toString status)) ∧
    (∀ msg, u = .transportError msg →
      generate_image_with_pollinations u =
        .error ("Image generation failed: " ++ msg)) := by
  refine ⟨⟨?_, ?_⟩, ?_, ?_, ?_⟩
  · rintro ⟨v, hv⟩
    obtain ⟨content, heq, _⟩ := gen_image_of_ok (upstreamOk_of_ok hv)
    exact ⟨content, heq⟩
  · rintro ⟨content, rfl⟩
    exact ⟨"data:image/png;base64," ++ base64Encode content,
      by simp [generate_image_with_pollinations]⟩
  · rintro content rfl
    simp [generate_image_with_pollinations]
  · rintro status content rfl hs
    simp only [generate_image_with_pollinations]
    rw [if_neg hs]
  · rintro msg rfl
    rfl

/-- Witness for claim C6 on a success, a 404 and a timeout. -/
theorem claim_C6_witness :
    generate_image_with_pollinations (.response 200 [77, 97, 110]) =
      .ok "data:image/png;base64,TWFu" ∧
    generate_image_with_pollinations (.response 404 []) =
      .error "Image generation failed: API returned status 404" ∧
    generate_image_with_pollinations (.transportError "timeout") =
      .error "Image generation failed: timeout" := by
  refine ⟨?_, ?_, ?_⟩
  · rw [(claim_C6 (.response 200 [77, 97, 110])).2.1 [77, 97, 110] rfl]
    rw [show "data:image/png;base64," ++ base64Encode [77, 97, 110] =
      "data:image/png;base64,TWFu" from by decide]
  · rw [(claim_C6 (.response 404 [])).2.2.1 404 [] rfl (by decide)]
    rw [show "Image generation failed: API returned status " ++ toString 404 =
      "Image generation failed: API returned status 404" from by decide]
  · rw [(claim_C6 (.transportError "timeout")).2.2.2 "timeout" rfl]
    rw [show "Image generation failed: " ++ "timeout" =
      "Image generation failed: timeout" from by decide]

/-- Claim C7: when the character exists and the upstream image call fails, the
single-avatar endpoint appends exactly one GenerationHistory row, with
`success = false` and a non-empty error text, leaves the characters table
(and hence the character's image field) unchanged, and returns a server
error. -/
theorem claim_C7 (character_id : Nat) (style_preference : String)
    (u : UpstreamResult) (s : AvatarState) (c : CharacterRow)
    (hfind : s.characters.find? (fun r => r.id == character_id) = some c)
    (hfail : upstreamOk u = false) :
    ∃ e, e ≠ "" ∧
      generate_character_avatar character_id style_preference u s =
        ({ characters := s.characters,
           history := s.history ++
             [{ entity_type := "character", entity_id := character_id,
                prompt_used := buildAvatarPrompt c style_preference,
                success := false, error_message := some e }] },
         .serverError ("Avatar generation failed: " ++ e)) := by
  obtain ⟨e, he⟩ := gen_image_of_fail hfail
  refine ⟨e, gen_image_error_ne he, ?_⟩
  simp only [generate_character_avatar, hfind, he, buildAvatarPrompt]

/-- Witness for claim C7 on a one-character state and a 500 upstream. -/
theorem claim_C7_witness :
    ∃ e, e ≠ "" ∧
      generate_character_avatar 1 "anime style" (.response 500 [])
        { characters := [{ id := 1, char_code := "C-0001", name := "Rei",
                           description := none, age := none, height_cm := none,
                           image_url := none }],
          history := [] } =
        ({ characters := [{ id := 1, char_code := "C-0001", name := "Rei",
                            description := none, age := none, height_cm := none,
                            image_url := none }],
           history := [{ entity_type := "character", entity_id := 1,
                         prompt_used := buildAvatarPrompt
                           { id := 1, char_code := "C-0001", name := "Rei",
                             description := none, age := none, height_cm := none,
                             image_url := none } "anime style",
                         success := false, error_message := some e }] },
         .serverError ("Avatar generation failed: " ++ e)) := by
  obtain ⟨e, hne, heq⟩ := claim_C7 1 "anime style" (.response 500 [])
    { characters := [{ id := 1, char_code := "C-0001", name := "Rei",
                       description := none, age := none, height_cm := none,
                       image_url := none }],
      history := [] }
    { id := 1, char_code := "C-0001", name := "Rei", description := none,
      age := none, height_cm := none, image_url := none }
    (by decide) (by decide)
  exact ⟨e, hne, heq⟩

/-- Claim C4: in the 6-template fan-out, zero successes fail the whole
operation with the aggregate error; k >= 1 successes return exactly one
variant per succeeded call, each carrying its 1-based variant id, the image
reference produced by that call, the style template of that call, and the
recorded prompt text, with `total_generated = k <= 6`. -/
theorem claim_C4 (name : String) (description : Option String) (age : Option Int)
    (outcomes : List (Except String String)) (hlen : outcomes.length = 6) :
    (okCount outcomes = 0 →
      generate_character_variants name description age outcomes =
        .error "All image generation attempts failed") ∧
    (1 ≤ okCount outcomes →
      ∃ resp, generate_character_variants name description age outcomes = .ok resp ∧
        resp.character_name = name ∧
        resp.variants.length = okCount outcomes ∧
        resp.total_generated = okCount outcomes ∧
        okCount outcomes ≤ 6 ∧
        ∀ v ∈ resp.variants,
          1 ≤ v.variant_id ∧ v.variant_id ≤ 6 ∧
          outcomes.get? (v.variant_id - 1) = some (.ok v.image_url) ∧
          styleVariations.get? (v.variant_id - 1) = some v.style ∧
          v.prompt_used = buildBasePrompt name description age ++ ", " ++ v.style) := by
  have hsl : styleVariations.length = outcomes.length := by
    rw [hlen]
    rfl
  have hcl := collectVariants_length (buildBasePrompt name description age)
    styleVariations outcomes 0 hsl
  constructor
  · intro h0
    simp only [generate_character_variants]
    rw [if_pos (List.length_eq_zero.mp (by rw [hcl, h0]))]
  · intro h1
    have hne : collectVariants (buildBasePrompt name description age) 0
        styleVariations outcomes ≠ [] := by
      intro hn
      rw [hn] at hcl
      simp at hcl
      omega
    simp only [generate_character_variants]
    rw [if_neg hne]
    refine ⟨_, rfl, rfl, hcl, hcl, by rw [← hlen]; exact okCount_le_length outcomes, ?_⟩
    intro v hv
    obtain ⟨j, hid, hout, hsty, hpr⟩ := collectVariants_mem
      (buildBasePrompt name description age) styleVariations outcomes 0 v hv
    have hj6 : j < 6 := by
      have hjlt : j < outcomes.length := by
        cases hg : outcomes.get? j with
        | none => rw [hg] at hout; exact Option.noConfusion hout
        | some r => exact List.get?_eq_some.mp hg |>.1
      omega
    have hj : v.variant_id - 1 = j := by omega
    rw [hj]
    exact ⟨by omega, by omega, hout, hsty, hpr⟩

/-- Witness for claim C4: all six fail, and a 4-of-6 partial success. -/
theorem claim_C4_witness :
    generate_character_variants "Rei" none none
      (List.replicate 6 (Except.error "boom")) =
      .error "All image generation attempts failed" ∧
    ∃ resp, generate_character_variants "Rei" none none
      [Except.ok "u1", Except.error "e2", Except.ok "u3", Except.error "e4",
       Except.ok "u5", Except.ok "u6"] = .ok resp ∧
      resp.variants.length = 4 ∧ resp.total_generated = 4 := by
  constructor
  · exact (claim_C4 "Rei" none none _ (by decide)).1 (by decide)
  · obtain ⟨resp, ha, _, hb, hc, _, _⟩ :=
      (claim_C4 "Rei" none none
        [Except.ok "u1", Except.error "e2", Except.ok "u3", Except.error "e4",
         Except.ok "u5", Except.ok "u6"] (by decide)).2 (by decide)
    exact ⟨resp, ha, by rw [hb]; decide, by rw [hc]; decide⟩

/-- Claim C5: the bulk workflow returns exactly one result record per input,
in input order; an item whose upstream call fails is marked
`generated = false` with a non-empty error text, an item whose call succeeds
is marked `generated = true` with an image reference, and a failure never
prevents the remaining items from being processed. -/
theorem claim_C5 (items : List BulkItem) (us : List UpstreamResult)
    (hlen : items.length = us.length) :
    (bulk_generate_characters items us).length = items.length ∧
    (∀ (i : Nat) (item : BulkItem) (u : UpstreamResult),
      items.get? i = some item → us.get? i = some u →
      ∃ r, (bulk_generate_characters items us).get? i = some r ∧
        r.name = item.name ∧ r.description = item.description ∧
        r.age = item.age ∧ r.height_cm = item.height_cm ∧
        (upstreamOk u = false →
          r.generated = false ∧ ∃ e, r.error = some e ∧ e ≠ "") ∧
        (upstreamOk u = true →
          r.generated = true ∧ ∃ url, r.image_url = some url)) := by
  induction items generalizing us with
  | nil =>
    refine ⟨by cases us <;> rfl, ?_⟩
    intro i item u hit _
    simp at hit
  | cons item0 items ih =>
    cases us with
    | nil => simp at hlen
    | cons u0 us' =>
      have hlen' : items.length = us'.length := by simpa using hlen
      obtain ⟨ihlen, ihmem⟩ := ih us' hlen'
      constructor
      · cases himg : generate_image_with_pollinations u0 with
        | ok url => simp [bulk_generate_characters, himg, ihlen]
        | error e => simp [bulk_generate_characters, himg, ihlen]
      · intro i item u hit hut
        cases i with
        | zero =>
          rw [List.get?_cons_zero] at hit hut
          obtain rfl := Option.some_inj.mp hit
          obtain rfl := Option.some_inj.mp hut
          cases himg : generate_image_with_pollinations u0 with
          | ok url =>
            refine ⟨{ name := item0.name, description := item0.description,
                      age := item0.age, height_cm := item0.height_cm,
                      image_url := some url, generated := true, error := none },
                    ?_, rfl, rfl, rfl, rfl, ?_, ?_⟩
            · simp [bulk_generate_characters, himg]
            · intro hf
              rw [upstreamOk_of_ok himg] at hf
              exact Bool.noConfusion hf
            · intro _
              exact ⟨rfl, url, rfl⟩
          | error e =>
            refine ⟨{ name := item0.name, description := item0.description,
                      age := item0.age, height_cm := item0.height_cm,
                      image_url := none, generated := false, error := some e },
                    ?_, rfl, rfl, rfl, rfl, ?_, ?_⟩
            · simp [bulk_generate_characters, himg]
            · intro _
              exact ⟨rfl, e, rfl, gen_image_error_ne himg⟩
            · intro ht
              obtain ⟨content, rfl, hok⟩ := gen_image_of_ok ht
              rw [himg] at hok
              exact Except.noConfusion hok
        | succ i' =>
          rw [List.get?_cons_succ] at hit hut
          obtain ⟨r, hr, h1, h2, h3, h4, h5, h6⟩ := ihmem i' item u hit hut
          refine ⟨r, ?_, h1, h2, h3, h4, h5, h6⟩
          cases himg : generate_image_with_pollinations u0 with
          | ok url => simpa [bulk_generate_characters, himg] using hr
          | error e => simpa [bulk_generate_characters, himg] using hr

/-- Witness for claim C5: three inputs where the middle upstream call fails. -/
theorem claim_C5_witness :
    (bulk_generate_characters
      [{ name := "A", description := none, age := none, height_cm := none },
       { name := "B", description := none, age := none, height_cm := none },
       { name := "Z", description := none, age := none, height_cm := none }]
      [.response 200 [1], .response 500 [], .response 200 [2]]).length = 3 ∧
    ∃ r, (bulk_generate_characters
      [{ name := "A", description := none, age := none, height_cm := none },
       { name := "B", description := none, age := none, height_cm := none },
       { name := "Z", description := none, age := none, height_cm := none }]
      [.response 200 [1], .response 500 [], .response 200 [2]]).get? 1 = some r ∧
      r.name = "B" ∧ r.generated = false ∧ ∃ e, r.error = some e ∧ e ≠ "" := by
  have h := claim_C5
    [{ name := "A", description := none, age := none, height_cm := none },
     { name := "B", description := none, age := none, height_cm := none },
     { name := "Z", description := none, age := none, height_cm := none }]
    [.response 200 [1], .response 500 [], .response 200 [2]] (by decide)
  refine ⟨by rw [h.1]; rfl, ?_⟩
  obtain ⟨r, hr, hname, _, _, _, hf, _⟩ := h.2 1
    { name := "B", description := none, age := none, height_cm := none }
    (.response 500 []) (by decide) (by decide)
  obtain ⟨hg, e, he, hne⟩ := hf (by decide)
  exact ⟨r, hr, hname, hg, e, he, hne⟩

end Manga
